import Mathlib

/-!
Shallow embedding of the LOAD DATA LOCAL INFILE handler of the mysql driver
(`infile.go`): the resource registries, the value encoder, the row-buffer
flush machine and the request dispatcher, together with theorems checking
the specification's claims against these definitions.

Conventions of the embedding:
* Go strings are modelled as Lean `String` / `List Char`; every byte the
  code inspects (`\\`, `\n`, `\r`, `\t`, `"`, `/`) is ASCII, so byte
  positions and char positions coincide for those tests.
* Go `error` values are `Option GoErr` (`none` = `nil`); `io.EOF` is the
  distinguished `GoErr.eof`.
* Effectful collaborators (`writePacket`, `readResultOK`, `readPacket`,
  `os.Open`, `Stat`, `Read`, `Close`) are driven by an explicit
  environment and recorded in a trace of `Ev` events.
* Go `int` arithmetic is `Int` with truncated division `Int.tdiv` /
  `Int.tmod` where the operands may be negative.
-/

set_option autoImplicit false

namespace Infile

/-- Errors that the handler or its collaborators can produce.  Each error
constructed by `infile.go` itself gets its own tagged shape; errors coming
from the environment (open, stat, read, send, close, result) carry an
opaque code. -/
inductive GoErr
  | eof
  | authFail (path : String)
  | readerNotRegistered (name : String)
  | readerNil (name : String)
  | openFail (code : Nat)
  | statFail (code : Nat)
  | readFail (code : Nat)
  | sendFail (code : Nat)
  | closeFail (code : Nat)
  | resultFail (code : Nat)
deriving DecidableEq

/-- Behaviour of a registered reader factory: whether `handler()` returns
`nil`, and whether the returned reader also implements `io.Closer`. -/
structure ReaderBeh where
  isNil : Bool
  isCloser : Bool
deriving DecidableEq

/-- Protocol-visible events of one request, in order of occurrence. -/
inductive Ev
  | startLoad
  | openFile (path : String)
  | writeData (n : Nat)
  | writeEmpty
  | resultOK
  | drain
  | flush (len : Nat)
deriving DecidableEq

/-- `strings.Trim(s, "\x22")`: remove all leading and trailing quote
characters. -/
def trimQuotes (s : String) : String :=
  String.mk (((s.data.dropWhile (· = '"')).reverse.dropWhile (· = '"')).reverse)

/-- `strings.Index`: position of the first occurrence of `needle` in
`hay`, or `none` where Go returns `-1`. -/
def indexOfSub (hay needle : List Char) : Option Nat :=
  if needle.isPrefixOf hay then some 0
  else
    match hay with
    | [] => none
    | _ :: t => (indexOfSub t needle).map (· + 1)

/-- The reader-path classification of `handleInFileRequest`:
`idx := strings.Index(name, "Reader::"); idx == 0 || (idx > 0 && name[idx-1] == '/')`.
Returns the matched index when the request is routed to the reader
registry, `none` when it is treated as a file path. -/
def readerIdx (name : String) : Option Nat :=
  match indexOfSub name.data ("Reader::".data) with
  | none => none
  | some 0 => some 0
  | some (i + 1) => if name.data.get? i = some '/' then some (i + 1) else none

/-! ### Registries (`RegisterLocalFile` …) -/

/-- `RegisterLocalFile`: the whitelist is modelled by its membership
function (Go map lookup of an absent key yields `false`). -/
def RegisterLocalFile (reg : String → Bool) (filePath : String) : String → Bool :=
  fun p => if p = trimQuotes filePath then true else reg p

/-- `DeregisterLocalFile`: `delete` from the whitelist map. -/
def DeregisterLocalFile (reg : String → Bool) (filePath : String) : String → Bool :=
  fun p => if p = trimQuotes filePath then false else reg p

/-- `RegisterReaderHandler`. -/
def RegisterReaderHandler (reg : String → Option ReaderBeh) (name : String)
    (handler : ReaderBeh) : String → Option ReaderBeh :=
  fun n => if n = name then some handler else reg n

/-- `DeregisterReaderHandler`. -/
def DeregisterReaderHandler (reg : String → Option ReaderBeh) (name : String) :
    String → Option ReaderBeh :=
  fun n => if n = name then none else reg n

/-- The authorization check of the file branch:
`mc.cfg.AllowAllFiles || fileRegister[name]` after quote stripping. -/
def isFileAllowed (allowAllFiles : Bool) (reg : String → Bool) (path : String) : Bool :=
  allowAllFiles || reg (trimQuotes path)

/-- Reader-registry lookup (`readerRegister[name]`). -/
def lookupReader (reg : String → Option ReaderBeh) (name : String) : Option ReaderBeh :=
  reg name

/-! ### `escapedText` -/

/-- Is `c` one of the four bytes the first scan of `escapedText` looks
for? -/
def isEscChar (c : Char) : Bool :=
  c = '\\' || c = '\n' || c = '\r' || c = '\t'

/-- Index of the first escapable character (`startPos` of the source's
first loop), `none` when `escapeNeeded` stays `false`. -/
def firstEscIdx : List Char → Option Nat
  | [] => none
  | c :: t => if isEscChar c then some 0 else (firstEscIdx t).map (· + 1)

/-- The `switch` of the second loop of `escapedText`, for one character. -/
def escChar (c : Char) : List Char :=
  if c = '\\' then ['\\', '\\']
  else if c = '\n' then ['\\', 'n']
  else if c = '\r' then ['\\', 'r']
  else if c = '\t' then ['\\', 't']
  else [c]

/-- The second loop of `escapedText`: append the escape of every
character from `startPos` on. -/
def escFrom : List Char → List Char
  | [] => []
  | c :: t => escChar c ++ escFrom t

/-- `escapedText`: scan for the first character needing escape; if none,
return the input unchanged; otherwise keep the prefix and escape the
rest. -/
def escapedText (text : String) : String :=
  match firstEscIdx text.data with
  | none => text
  | some startPos =>
      String.mk (text.data.take startPos ++ escFrom (text.data.drop startPos))

/-! ### Timestamp rendering (`encodedLoadData`, `case time.Time`)

`digits10`/`digits01` are the driver's two-digit lookup tables.  They are
defined in a file of this repository outside `src/` (the dispatcher's
utility file), so they are modelled here.
-/

/-- Modelled from the spec: the driver's 100-entry units-digit lookup
table used by the timestamp renderer (`digits01[i] = '0' + i % 10`); its
definition lives outside the dispatcher source file. -/
def digits01 : String :=
  "0123456789012345678901234567890123456789012345678901234567890123456789012345678901234567890123456789"

/-- Modelled from the spec: the driver's 100-entry tens-digit lookup
table used by the timestamp renderer (`digits10[i] = '0' + i / 10`); its
definition lives outside the dispatcher source file. -/
def digits10 : String :=
  "0000000000111111111122222222223333333333444444444455555555556666666666777777777788888888889999999999"

/-- Go string indexing `digits10[i]` with an `int` index: out of bounds
(negative or past the end) is a panic, modelled as `none`. -/
def dig10 (i : Int) : Option Char :=
  if i < 0 then none else digits10.data.get? i.toNat

/-- Go string indexing `digits01[i]`; out of bounds is a panic, modelled
as `none`. -/
def dig01 (i : Int) : Option Char :=
  if i < 0 then none else digits01.data.get? i.toNat

/-- The adjacent pair `digits10[x], digits01[x]` that the renderer emits
for every two-digit field. -/
def dig2 (i : Int) : Option (List Char) :=
  match dig10 i, dig01 i with
  | some a, some b => some [a, b]
  | _, _ => none

/-! Model of the Go standard library's civil-time decomposition
(`time.Time.Date`/`Clock`/`Nanosecond`).  An instant is its count of
nanoseconds since 0001-01-01 00:00:00 UTC (`time.Time.IsZero` is
`= 0`); a location is its zone offset in seconds.  The year/day-of-year
computation mirrors `time.absDate`'s 400/100/4/1-year cycle reduction,
extended to instants before year 1 by floor division. -/

/-- Day count within the 400-year cycle: `d % 146097` (floor remainder). -/
def cyc0 (z : Int) : Nat := (z % 146097).toNat

/-- `n := d / daysPer100Years; n -= n >> 2` of `time.absDate`. -/
def cy1 (d : Nat) : Nat := d / 36524 - d / 36524 / 4

/-- Remaining days after removing the 100-year cycles. -/
def cd1 (d : Nat) : Nat := d - 36524 * cy1 d

/-- `n := d / daysPer4Years` of `time.absDate`. -/
def cy2 (d : Nat) : Nat := d / 1461

/-- Remaining days after removing the 4-year cycles. -/
def cd2 (d : Nat) : Nat := d - 1461 * cy2 d

/-- `n := d / 365; n -= n >> 2` of `time.absDate`. -/
def cy3 (d : Nat) : Nat := d / 365 - d / 365 / 4

/-- The final day-of-year of `time.absDate`. -/
def cd3 (d : Nat) : Nat := d - 365 * cy3 d

/-- `time.absDate`'s year and day-of-year from a day number (days since
0001-01-01). -/
def absDate (z : Int) : Int × Nat :=
  let d0 := cyc0 z
  (400 * (z / 146097) +
      ((100 * cy1 d0 + 4 * cy2 (cd1 d0) + cy3 (cd2 (cd1 d0)) : Nat) : Int) + 1,
    cd3 (cd2 (cd1 d0)))

/-- `isLeap` of the time package. -/
def isLeap (y : Int) : Bool :=
  y % 4 == 0 && (y % 100 != 0 || y % 400 == 0)

/-- `daysBefore[m]`: day count before month `m+1` in a non-leap year. -/
def daysBefore : Nat → Nat
  | 0 => 0
  | 1 => 31
  | 2 => 59
  | 3 => 90
  | 4 => 120
  | 5 => 151
  | 6 => 181
  | 7 => 212
  | 8 => 243
  | 9 => 273
  | 10 => 304
  | 11 => 334
  | _ => 365

/-- The month/day computation of `time.absDate` after the leap-day
adjustment: estimate the month as `day / 31` and correct with the
`daysBefore` table. -/
def mdReg (day : Nat) : Nat × Nat :=
  let month := day / 31
  let dEnd := daysBefore (month + 1)
  if day ≥ dEnd then (month + 1 + 1, day - dEnd + 1)
  else (month + 1, day - daysBefore month + 1)

/-- Month and day-of-month from day-of-year, with `time.absDate`'s
leap-year special cases for February 29. -/
def monthDayFromYday (leap : Bool) (yday : Nat) : Nat × Nat :=
  if leap then
    if yday > 59 then mdReg (yday - 1)
    else if yday = 59 then (2, 29)
    else mdReg yday
  else mdReg yday

/-- Civil seconds of instant `v` (nanoseconds) in a zone with offset
`off` seconds. -/
def civilSecs (off v : Int) : Int := v / 1000000000 + off

/-- `v.Year()` in the zone with offset `off`. -/
def tsYear (off v : Int) : Int := (absDate (civilSecs off v / 86400)).1

/-- Day-of-year of `v` in the zone with offset `off`. -/
def tsYday (off v : Int) : Nat := (absDate (civilSecs off v / 86400)).2

/-- `v.Month()` (January = 1). -/
def tsMonth (off v : Int) : Nat :=
  (monthDayFromYday (isLeap (tsYear off v)) (tsYday off v)).1

/-- `v.Day()`. -/
def tsDay (off v : Int) : Nat :=
  (monthDayFromYday (isLeap (tsYear off v)) (tsYday off v)).2

/-- Seconds elapsed in the civil day of `v`. -/
def tsSecOfDay (off v : Int) : Nat := (civilSecs off v % 86400).toNat

/-- `v.Hour()`. -/
def tsHour (off v : Int) : Nat := tsSecOfDay off v / 3600

/-- `v.Minute()`. -/
def tsMinute (off v : Int) : Nat := tsSecOfDay off v % 3600 / 60

/-- `v.Second()`. -/
def tsSecond (off v : Int) : Nat := tsSecOfDay off v % 60

/-- `v.Nanosecond() / 1000`: the microsecond component. -/
def tsMicro (v : Int) : Nat := (v % 1000000000).toNat / 1000

/-- The `case time.Time` arm of `encodedLoadData`: the zero sentinel
renders as `0000-00-00`; otherwise the instant is taken in the configured
zone, 500 nanoseconds are added, and the fields are rendered through the
two-digit lookup tables, the microseconds (three table pairs) appended
only when non-zero.  A table access out of bounds (the panic) is `none`,
which propagates through the whole arm. -/
def encTimestamp (off tns : Int) : Option String :=
  if tns = 0 then some "0000-00-00"
  else do
    let y1 ← dig2 ((tsYear off (tns + 500)).tdiv 100)
    let y2 ← dig2 ((tsYear off (tns + 500)).tmod 100)
    let mo ← dig2 (tsMonth off (tns + 500))
    let d ← dig2 (tsDay off (tns + 500))
    let h ← dig2 (tsHour off (tns + 500))
    let mi ← dig2 (tsMinute off (tns + 500))
    let s ← dig2 (tsSecond off (tns + 500))
    let buf := y1 ++ y2 ++ '-' :: mo ++ '-' :: d ++ ' ' :: h ++ ':' :: mi ++ ':' :: s
    if tsMicro (tns + 500) ≠ 0 then do
      let m1 ← dig2 ((tsMicro (tns + 500) / 10000 : Nat))
      let m2 ← dig2 ((tsMicro (tns + 500) / 100 % 100 : Nat))
      let m3 ← dig2 ((tsMicro (tns + 500) % 100 : Nat))
      pure (String.mk (buf ++ '.' :: (m1 ++ m2 ++ m3)))
    else pure (String.mk buf)

/-! ### `encodedLoadData` -/

/-- The scalar variants `encodedLoadData` switches on.  `float64` is
omitted: its shortest-round-trip decimal rendering is floating-point
behaviour outside this embedding, and no theorem below depends on it.
`vbytesNil` is a nil `[]byte`; `vbytes` a non-nil one. -/
inductive LoadValue
  | vint (v : Int)
  | vuint (v : Nat)
  | vbool (b : Bool)
  | vtime (ns : Int)
  | vbytesNil
  | vbytes (s : String)
  | vstr (s : String)
  | vnull
  | vother
deriving DecidableEq

/-- `encodedLoadData` over the supported variants (`off` is the zone
offset of `mc.cfg.Loc`).  The unsupported arm logs a diagnostic and
yields the empty string; only the timestamp arm can panic (`none`). -/
def encodedLoadData (off : Int) : LoadValue → Option String
  | .vint v => some (toString v)
  | .vuint v => some (toString v)
  | .vbool b => some (if b then "1" else "0")
  | .vtime ns => encTimestamp off ns
  | .vbytesNil => some "\\N"
  | .vbytes s => some (escapedText s)
  | .vstr s => some (escapedText s)
  | .vnull => some "\\N"
  | .vother => some ""

/-! ### Request dispatcher (`handleInFileRequest`) -/

/-- Environment driving one request: the two registries, the relevant
connection configuration, and the behaviour of every collaborator the
dispatcher calls.  `reads` is the stream of `(n, err)` results the
resolved source's `Read` yields; `writeErrs` gives the result of the
`k`-th `writePacket` call; `drainRes` is the value `readPacket` would
produce — the code discards it. -/
structure Env where
  readerReg : String → Option ReaderBeh
  fileReg : String → Bool
  allowAllFiles : Bool
  maxWriteSize : Int
  openRes : String → Except GoErr Nat
  statRes : String → Option GoErr
  reads : List (Nat × Option GoErr)
  writeErrs : Nat → Option GoErr
  closeErr : Option GoErr
  okRes : Option GoErr
  drainRes : Option GoErr

/-- Outcome of the source-resolution section: events so far (the file
`os.Open` attempt), the error, whether `rdr` was set, whether a closer
was deferred, and the (possibly shrunk) packet size. -/
structure Resolved where
  evs : List Ev
  err : Option GoErr
  hasRdr : Bool
  closer : Bool
  ps : Int
deriving DecidableEq

/-- The reader/file resolution of `handleInFileRequest` (everything
between the `Data::Data` test and the content loop). -/
def resolveSource (env : Env) (name : String) (ps0 : Int) : Resolved :=
  match readerIdx name with
  | some idx =>
    let n' := String.mk (name.data.drop (idx + 8))
    match env.readerReg n' with
    | some beh =>
      if beh.isNil then ⟨[], some (.readerNil n'), false, false, ps0⟩
      else ⟨[], none, true, beh.isCloser, ps0⟩
    | none => ⟨[], some (.readerNotRegistered n'), false, false, ps0⟩
  | none =>
    let p := trimQuotes name
    if env.allowAllFiles || env.fileReg p then
      match env.openRes p with
      | .error e => ⟨[.openFile p], some e, false, false, ps0⟩
      | .ok size =>
        match env.statRes p with
        | some e => ⟨[.openFile p], some e, false, true, ps0⟩
        | none => ⟨[.openFile p], none, true, true, if (size : Int) < ps0 then (size : Int) else ps0⟩
    else ⟨[], some (.authFail p), false, false, ps0⟩

/-- How the content loop `for err == nil { n, err = rdr.Read(…); … }`
ends: with the loop condition turning false (`finished`), or by the
early `return ioErr` of a failed `writePacket` (`sendFailed`). -/
inductive ReadExit
  | finished (e : GoErr)
  | sendFailed (e : GoErr)
deriving DecidableEq

/-- The content loop: one entry of the list per `Read` call; a write is
attempted exactly for the reads with `n > 0`, before the next loop test.
`none` models the loop running the stream dry without an error
(divergence of the model, the real reader blocks). -/
def readLoop (wErr : Nat → Option GoErr) :
    List (Nat × Option GoErr) → Nat → Option (List Ev × Nat × ReadExit)
  | [], _ => none
  | (n, rerr) :: rest, widx =>
    if 0 < n then
      match wErr widx with
      | some e => some ([.writeData n], widx + 1, .sendFailed e)
      | none =>
        match rerr with
        | some e => some ([.writeData n], widx + 1, .finished e)
        | none =>
          (readLoop wErr rest (widx + 1)).map
            (fun r => (Ev.writeData n :: r.1, r.2.1, r.2.2))
    else
      match rerr with
      | some e => some ([], widx, .finished e)
      | none => readLoop wErr rest widx

/-- State after resolution and streaming: the error so far (with
`io.EOF` already turned into `nil`), or an aborting send failure. -/
inductive MidExit
  | ok (err0 : Option GoErr)
  | sendFailed (e : GoErr)
deriving DecidableEq

/-- The initial chunk size of `handleInFileRequest`: 16 KiB, clamped
down to the connection's maximum write size. -/
def ps0 (env : Env) : Int :=
  if env.maxWriteSize < 16 * 1024 then env.maxWriteSize else 16 * 1024

/-- Resolution followed by the content loop (steps 1–5 of the
dispatcher): events, next write index, whether a closer is pending, and
the mid-state. -/
def phase12 (env : Env) (name : String) : Option (List Ev × Nat × Bool × MidExit) :=
  let r := resolveSource env name (ps0 env)
  if r.err = none ∧ 0 < r.ps then
    match readLoop env.writeErrs env.reads 0 with
    | none => none
    | some (evs, widx, .finished e) =>
      some (r.evs ++ evs, widx, r.closer, .ok (if e = .eof then none else some e))
    | some (evs, widx, .sendFailed e) => some (r.evs ++ evs, widx, r.closer, .sendFailed e)
  else some (r.evs, 0, r.closer, .ok r.err)

/-- `deferredClose`: the deferred close may only surface its error when
no earlier error exists. -/
def applyClose (closer : Bool) (closeErr res : Option GoErr) : Option GoErr :=
  if res = none ∧ closer then closeErr else res

/-- `handleInFileRequest`: the full dispatcher.  Result: the ordered
protocol trace and the Go return value.  The `Data::Data` sentinel
delegates to `loadDataStart` (whose state effect is modelled separately)
and performs no protocol traffic. -/
def handleInFileRequest (env : Env) (name : String) : Option (List Ev × Option GoErr) :=
  if name = "Data::Data" then some ([.startLoad], none)
  else
    match phase12 env name with
    | none => none
    | some (evs, _, _, .sendFailed e) => some (evs, some e)
    | some (evs, widx, closer, .ok err0) =>
      match env.writeErrs widx with
      | some e => some (evs ++ [.writeEmpty], some e)
      | none =>
        match err0 with
        | none =>
          some (evs ++ [.writeEmpty, .resultOK], applyClose closer env.closeErr env.okRes)
        | some e => some (evs ++ [.writeEmpty, .drain], some e)

/-! ### Row buffer / flush machine (`loadDataStart` …) -/

/-- The connection state the programmatic-load machine reads and
writes: the flag, the two size fields and the row buffer (a byte list;
the placeholder header is the four zero bytes). -/
structure MCState where
  inLoadData : Bool
  maxWriteSize : Int
  maxLoadDataSize : Int
  buf : List Nat
deriving DecidableEq

/-- Collaborator behaviour for the terminate transition. -/
structure LoadEnv where
  wErr : Nat → Option GoErr
  okRes : Option GoErr

/-- `loadDataStart`: set the flag, initialize the flush threshold
(16 KiB, lowered to `maxWriteSize / 2` when that is smaller) and append
the 4-byte placeholder header to the buffer. -/
def loadDataStart (st : MCState) : MCState :=
  let mlds : Int := 16 * 1024
  let mlds := if st.maxWriteSize.tdiv 2 < mlds then st.maxWriteSize.tdiv 2 else mlds
  { st with inLoadData := true, maxLoadDataSize := mlds, buf := st.buf ++ [0, 0, 0, 0] }

/-- `loadDataWritePacket`: send the buffer as one packet; on success
reset it back to just the placeholder header. -/
def loadDataWritePacket (env : LoadEnv) (widx : Nat) (st : MCState) :
    List Ev × Option GoErr × MCState :=
  match env.wErr widx with
  | some e => ([.flush st.buf.length], some e, st)
  | none => ([.flush st.buf.length], none, { st with buf := [0, 0, 0, 0] })

/-- `loadDataTerminate`: flush the buffer (a packet is sent even when
only the header is buffered), reset it, send the empty termination
packet, then read the completion result; the deferred
`mc.inLoadData = false` runs on every exit.  (`err` is still `nil` at
the final test, so the drain line of the source is unreachable.) -/
def loadDataTerminate (env : LoadEnv) (st : MCState) : List Ev × Option GoErr × MCState :=
  let r1 := loadDataWritePacket env 0 st
  match r1.2.1 with
  | some e => (r1.1, some e, { r1.2.2 with inLoadData := false })
  | none =>
    let st2 := { r1.2.2 with buf := [] }
    match env.wErr 1 with
    | some e => (r1.1 ++ [.writeEmpty], some e, { st2 with inLoadData := false })
    | none => (r1.1 ++ [.writeEmpty, .resultOK], env.okRes, { st2 with inLoadData := false })

/-! ## Spec-side definitions

These follow the specification's words and are compared against the
definitions above, which follow the source. -/

/-- Per-character escaping as the spec words it: each of backslash,
newline, carriage return and horizontal tab becomes its two-character
backslash escape; every other character passes through unchanged. -/
def specEscapeChar (c : Char) : List Char :=
  if c = '\\' then ['\\', '\\']
  else if c = '\n' then ['\\', 'n']
  else if c = '\r' then ['\\', 'r']
  else if c = '\t' then ['\\', 't']
  else [c]

/-- The decimal digit character for `n < 10`. -/
def digitChar (n : Nat) : Char := Char.ofNat (48 + n)

/-- A number zero-padded to two decimal digits. -/
def pad2list (n : Nat) : List Char := [digitChar (n / 10), digitChar (n % 10)]

/-- A number zero-padded to four decimal digits. -/
def pad4list (n : Nat) : List Char :=
  [digitChar (n / 1000), digitChar (n / 100 % 10), digitChar (n / 10 % 10), digitChar (n % 10)]

/-- A number zero-padded to six decimal digits. -/
def pad6list (n : Nat) : List Char :=
  [digitChar (n / 100000), digitChar (n / 10000 % 10), digitChar (n / 1000 % 10),
    digitChar (n / 100 % 10), digitChar (n / 10 % 10), digitChar (n % 10)]

/-- The timestamp rendering as the spec words it: the civil fields of
the instant moved by the fixed 500 ns rounding offset, in the configured
zone, as `YYYY-MM-DD HH:MM:SS` with a zero-padded four-digit year and
zero-padded two-digit fields, and `.` plus the microseconds zero-padded
to six digits appended exactly when the microsecond component is
non-zero. -/
def specTimeRender (off tns : Int) : String :=
  String.mk
    (pad4list (tsYear off (tns + 500)).toNat ++
      '-' :: pad2list (tsMonth off (tns + 500)) ++
      '-' :: pad2list (tsDay off (tns + 500)) ++
      ' ' :: pad2list (tsHour off (tns + 500)) ++
      ':' :: pad2list (tsMinute off (tns + 500)) ++
      ':' :: pad2list (tsSecond off (tns + 500)) ++
      (if tsMicro (tns + 500) ≠ 0 then '.' :: pad6list (tsMicro (tns + 500)) else []))

/-! ### Concrete collaborator environments for the closed instances -/

/-- No reader registered, no file whitelisted, override off, transport
healthy. -/
def envNoAuth : Env :=
  { readerReg := fun _ => none
    fileReg := fun _ => false
    allowAllFiles := false
    maxWriteSize := 4096
    openRes := fun _ => .error (.openFail 1)
    statRes := fun _ => none
    reads := [(0, some .eof)]
    writeErrs := fun _ => none
    closeErr := none
    okRes := none
    drainRes := some (.resultFail 9) }

/-- A registered reader named `data` whose stream yields 3 bytes and
then fails with a read error; transport healthy. -/
def envReadErr : Env :=
  { envNoAuth with
    readerReg := fun n => if n = "data" then some ⟨false, false⟩ else none
    reads := [(3, none), (0, some (.readFail 7))] }

/-- Like `envReadErr`, but the first `writePacket` fails. -/
def envSendErr : Env :=
  { envReadErr with writeErrs := fun k => if k = 0 then some (.sendFail 3) else none }

/-- Like `envNoAuth`, but every `writePacket` fails. -/
def envTermSendErr : Env :=
  { envNoAuth with writeErrs := fun _ => some (.sendFail 9) }

/-! ## Theorems -/

theorem strMk_data (s : String) : String.mk s.data = s := by
  cases s
  rfl

theorem escFrom_eq_join (l : List Char) : escFrom l = (l.map escChar).flatten := by
  induction l with
  | nil => rfl
  | cons c t ih => simp [escFrom, ih]

theorem escChar_of_not_esc {c : Char} (h : isEscChar c = false) : escChar c = [c] := by
  simp only [isEscChar, Bool.or_eq_false_iff, decide_eq_false_iff_not] at h
  obtain ⟨⟨⟨h1, h2⟩, h3⟩, h4⟩ := h
  simp [escChar, h1, h2, h3, h4]

theorem join_of_no_esc : ∀ {l : List Char}, firstEscIdx l = none → (l.map escChar).flatten = l := by
  intro l
  induction l with
  | nil => intro _; rfl
  | cons c t ih =>
    intro h
    simp only [firstEscIdx] at h
    cases hc : isEscChar c with
    | true => rw [hc] at h; simp at h
    | false =>
      rw [hc] at h
      simp only [Bool.false_eq_true, if_false] at h
      cases hft : firstEscIdx t with
      | some j => rw [hft] at h; simp at h
      | none => simp [escChar_of_not_esc hc, ih hft]

theorem take_escFrom_eq_join : ∀ {l : List Char} {i : Nat}, firstEscIdx l = some i →
    l.take i ++ escFrom (l.drop i) = (l.map escChar).flatten := by
  intro l
  induction l with
  | nil => intro i h; simp [firstEscIdx] at h
  | cons c t ih =>
    intro i h
    simp only [firstEscIdx] at h
    cases hc : isEscChar c with
    | true =>
      rw [hc] at h
      simp only [if_true] at h
      cases h
      simp [escFrom_eq_join]
    | false =>
      rw [hc] at h
      simp only [Bool.false_eq_true, if_false] at h
      cases hft : firstEscIdx t with
      | none => rw [hft] at h; simp at h
      | some j =>
        rw [hft] at h
        simp at h
        subst h
        simp [List.take_succ_cons, List.drop_succ_cons, escChar_of_not_esc hc, ih hft]

theorem firstEscIdx_none_of_all : ∀ {l : List Char}, (∀ c ∈ l, isEscChar c = false) →
    firstEscIdx l = none := by
  intro l
  induction l with
  | nil => intro _; rfl
  | cons c t ih =>
    intro h
    have hc := h c (List.mem_cons_self c t)
    simp only [firstEscIdx, hc, Bool.false_eq_true, if_false]
    rw [ih fun x hx => h x (List.mem_cons_of_mem _ hx)]
    rfl

/-- C3: `escapedText` replaces exactly backslash, newline, carriage
return and tab by their two-character escapes, position by position,
leaves every other character unchanged, and returns the input itself
when no such character occurs. -/
theorem escapedText_escapes_exactly (s : String) :
    escapedText s = String.mk ((s.data.map specEscapeChar).flatten) ∧
    ((∀ c ∈ s.data, c ≠ '\\' ∧ c ≠ '\n' ∧ c ≠ '\r' ∧ c ≠ '\t') → escapedText s = s) := by
  have hmap : ∀ l : List Char, List.map specEscapeChar l = List.map escChar l := by
    intro l
    rfl
  constructor
  · rw [hmap]
    unfold escapedText
    cases h : firstEscIdx s.data with
    | none =>
      show s = String.mk _
      rw [join_of_no_esc h, strMk_data]
    | some i =>
      show String.mk _ = _
      exact congrArg String.mk (take_escFrom_eq_join h)
  · intro hnone
    have h : firstEscIdx s.data = none := by
      refine firstEscIdx_none_of_all fun c hc => ?_
      have := hnone c hc
      simp [isEscChar, this.1, this.2.1, this.2.2.1, this.2.2.2]
    unfold escapedText
    rw [h]

/-- Closed instance of `escapedText_escapes_exactly`: a plain string
passes through unchanged. -/
theorem escapedText_escapes_exactly_witness : escapedText "test" = "test" :=
  (escapedText_escapes_exactly "test").2 (by decide)

/-- C10: registering then deregistering a file path makes the
authorization check (override disabled) fail again, and registering then
deregistering a reader name makes the lookup miss again. -/
theorem register_deregister_roundtrip (freg : String → Bool) (p : String)
    (rreg : String → Option ReaderBeh) (n : String) (h : ReaderBeh) :
    isFileAllowed false (DeregisterLocalFile (RegisterLocalFile freg p) p) p = false ∧
    lookupReader (DeregisterReaderHandler (RegisterReaderHandler rreg n h) n) n = none := by
  constructor
  · simp [isFileAllowed, DeregisterLocalFile, RegisterLocalFile]
  · simp [lookupReader, DeregisterReaderHandler, RegisterReaderHandler]

/-- C5: the flush threshold set by `loadDataStart` is
`min(16 KiB, maxWriteSize / 2)`, hence bounded by both. -/
theorem loadDataStart_threshold (st : MCState) :
    (loadDataStart st).maxLoadDataSize = min (16 * 1024) (st.maxWriteSize.tdiv 2) ∧
    (loadDataStart st).maxLoadDataSize ≤ 16 * 1024 ∧
    (loadDataStart st).maxLoadDataSize ≤ st.maxWriteSize.tdiv 2 := by
  have hdef : (loadDataStart st).maxLoadDataSize =
      if st.maxWriteSize.tdiv 2 < 16 * 1024 then st.maxWriteSize.tdiv 2 else 16 * 1024 := rfl
  rw [hdef, min_def]
  split <;> split <;> omega

/-- C6: terminating a load always clears the flag (even on error),
always attempts the buffer flush first (also when only the header is
buffered), and — when that flush send succeeds — sends the empty
termination packet right after it. -/
theorem loadDataTerminate_spec (env : LoadEnv) (st : MCState) :
    (loadDataTerminate env st).2.2.inLoadData = false ∧
    (∃ rest, (loadDataTerminate env st).1 = Ev.flush st.buf.length :: rest) ∧
    (env.wErr 0 = none →
      ∃ rest, (loadDataTerminate env st).1 =
        Ev.flush st.buf.length :: Ev.writeEmpty :: rest) := by
  unfold loadDataTerminate loadDataWritePacket
  cases h0 : env.wErr 0 with
  | some e => simp
  | none =>
    cases h1 : env.wErr 1 with
    | some e => simp
    | none => simp

/-- Closed instance of `loadDataTerminate_spec`: a load started with no
rows appended still flushes the header-only buffer and then sends the
empty termination frame, and the flag is cleared. -/
theorem loadDataTerminate_spec_witness :
    (loadDataTerminate ⟨fun _ => none, none⟩
        (loadDataStart ⟨false, 4096, 0, []⟩)).2.2.inLoadData = false ∧
    ∃ rest, (loadDataTerminate ⟨fun _ => none, none⟩
        (loadDataStart ⟨false, 4096, 0, []⟩)).1 = Ev.flush 4 :: Ev.writeEmpty :: rest := by
  refine ⟨(loadDataTerminate_spec ⟨fun _ => none, none⟩ _).1, ?_⟩
  have h := (loadDataTerminate_spec ⟨fun _ => none, none⟩
    (loadDataStart ⟨false, 4096, 0, []⟩)).2.2 rfl
  simpa using h

/-! ### Bounds of the civil-time fields -/

theorem cyc0_le (z : Int) : cyc0 z ≤ 146096 := by
  unfold cyc0
  omega

theorem cd1_le {d : Nat} (h : d ≤ 146096) : cd1 d ≤ 36524 := by
  unfold cd1 cy1
  omega

theorem cd2_le {d : Nat} (_ : d ≤ 36524) : cd2 d ≤ 1460 := by
  unfold cd2 cy2
  omega

theorem cd3_le {d : Nat} (h : d ≤ 1460) : cd3 d ≤ 365 := by
  unfold cd3 cy3
  omega

theorem absDate_yday_le (z : Int) : (absDate z).2 ≤ 365 :=
  cd3_le (cd2_le (cd1_le (cyc0_le z)))

set_option maxRecDepth 4000 in
theorem monthDay_le : ∀ yd : Nat, yd < 366 → ∀ b : Bool,
    (monthDayFromYday b yd).1 ≤ 99 ∧ (monthDayFromYday b yd).2 ≤ 99 := by
  decide

theorem tsYday_le (off v : Int) : tsYday off v ≤ 365 := absDate_yday_le _

theorem tsMonth_le (off v : Int) : tsMonth off v ≤ 99 :=
  (monthDay_le _ (by have := tsYday_le off v; omega) _).1

theorem tsDay_le (off v : Int) : tsDay off v ≤ 99 :=
  (monthDay_le _ (by have := tsYday_le off v; omega) _).2

theorem tsSecOfDay_lt (off v : Int) : tsSecOfDay off v < 86400 := by
  unfold tsSecOfDay
  omega

theorem tsHour_le (off v : Int) : tsHour off v ≤ 99 := by
  have := tsSecOfDay_lt off v
  unfold tsHour
  omega

theorem tsMinute_le (off v : Int) : tsMinute off v ≤ 99 := by
  unfold tsMinute
  omega

theorem tsSecond_le (off v : Int) : tsSecond off v ≤ 99 := by
  unfold tsSecond
  omega

theorem tsMicro_lt (v : Int) : tsMicro v < 1000000 := by
  unfold tsMicro
  omega

/-! ### The two-digit lookup tables agree with zero-padded decimal -/

theorem digits_get : ∀ n : Nat, n < 100 →
    digits10.data.get? n = some (digitChar (n / 10)) ∧
    digits01.data.get? n = some (digitChar (n % 10)) := by
  decide

theorem dig2_nat (n : Nat) (h : n ≤ 99) :
    dig2 (n : Int) = some [digitChar (n / 10), digitChar (n % 10)] := by
  have hg := digits_get n (by omega)
  have hn : ¬((n : Int) < 0) := by omega
  have ht : ((n : Int)).toNat = n := rfl
  unfold dig2 dig10 dig01
  rw [if_neg hn, if_neg hn, ht, hg.1, hg.2]

theorem dig2_none_of_neg {i : Int} (h : i < 0) : dig2 i = none := by
  unfold dig2 dig10
  rw [if_pos h]

theorem dig2_none_of_ge {i : Int} (h : 100 ≤ i) : dig2 i = none := by
  unfold dig2 dig10
  rw [if_neg (by omega)]
  have hlen : digits10.data.length = 100 := by decide
  rw [List.get?_eq_none.mpr (by omega)]

/-- C2 (amended): the zero timestamp encodes to the literal
`0000-00-00`; a non-zero timestamp whose zone-adjusted, 500 ns-offset
year fits in four digits encodes to the `YYYY-MM-DD HH:MM:SS` rendering
of the truncated-to-microsecond fields, with `.` and the six-digit
microseconds appended exactly when the microsecond component is
non-zero. -/
theorem encodedLoadData_timestamp_format (off tns : Int) :
    encodedLoadData off (.vtime 0) = some "0000-00-00" ∧
    (tns ≠ 0 → 0 ≤ tsYear off (tns + 500) → tsYear off (tns + 500) ≤ 9999 →
      encodedLoadData off (.vtime tns) = some (specTimeRender off tns)) := by
  refine ⟨rfl, fun htns hy0 hy1 => ?_⟩
  show encTimestamp off tns = some (specTimeRender off tns)
  obtain ⟨yn, hyn⟩ : ∃ yn : Nat, tsYear off (tns + 500) = (yn : Int) :=
    ⟨(tsYear off (tns + 500)).toNat, (Int.toNat_of_nonneg hy0).symm⟩
  rw [hyn] at hy1
  have hyn9 : yn ≤ 9999 := by exact_mod_cast hy1
  unfold encTimestamp specTimeRender
  rw [if_neg htns, hyn]
  rw [show ((yn : Int)).tdiv 100 = ((yn / 100 : Nat) : Int) from rfl,
      show ((yn : Int)).tmod 100 = ((yn % 100 : Nat) : Int) from rfl,
      show ((yn : Int)).toNat = yn from rfl]
  rw [dig2_nat (yn / 100) (by omega), dig2_nat (yn % 100) (by omega),
      dig2_nat _ (tsMonth_le off (tns + 500)), dig2_nat _ (tsDay_le off (tns + 500)),
      dig2_nat _ (tsHour_le off (tns + 500)), dig2_nat _ (tsMinute_le off (tns + 500)),
      dig2_nat _ (tsSecond_le off (tns + 500))]
  have e1 : yn / 100 / 10 = yn / 1000 := by omega
  have e2 : yn % 100 / 10 = yn / 10 % 10 := by omega
  have e3 : yn % 100 % 10 = yn % 10 := by omega
  rw [e1, e2, e3]
  by_cases hm : tsMicro (tns + 500) = 0
  · simp [hm, pad4list, pad2list]
  · have hlt := tsMicro_lt (tns + 500)
    rw [dig2_nat (tsMicro (tns + 500) / 10000) (by omega),
        dig2_nat (tsMicro (tns + 500) / 100 % 100) (by omega),
        dig2_nat (tsMicro (tns + 500) % 100) (by omega)]
    have m1 : tsMicro (tns + 500) / 10000 / 10 = tsMicro (tns + 500) / 100000 := by omega
    have m2 : tsMicro (tns + 500) / 100 % 100 / 10 = tsMicro (tns + 500) / 1000 % 10 := by omega
    have m3 : tsMicro (tns + 500) / 100 % 100 % 10 = tsMicro (tns + 500) / 100 % 10 := by omega
    have m4 : tsMicro (tns + 500) % 100 / 10 = tsMicro (tns + 500) / 10 % 10 := by omega
    have m5 : tsMicro (tns + 500) % 100 % 10 = tsMicro (tns + 500) % 10 := by omega
    rw [m1, m2, m3, m4, m5]
    simp [hm, pad4list, pad2list, pad6list]

/-- Closed instance of `encodedLoadData_timestamp_format` at
2014-12-31T12:13:24Z with a UTC zone. -/
theorem encodedLoadData_timestamp_format_witness :
    encodedLoadData 0 (.vtime 63555624804000000000) =
      some (specTimeRender 0 63555624804000000000) :=
  (encodedLoadData_timestamp_format 0 63555624804000000000).2
    (by decide) (by decide) (by decide)

/-- C2 as frozen is false on the code: the non-zero timestamp
10000-01-01T00:00:00Z (nanosecond count `3652059 * 86400 * 10^9`) does
not render to any `YYYY-MM-DD HH:MM:SS` string — the lookup-table access
is out of bounds (a panic), modelled as `none`. -/
theorem encodedLoadData_timestamp_year10000_counterexample :
    encodedLoadData 0 (.vtime 315537897600000000000) = none ∧
    (315537897600000000000 : Int) ≠ 0 := by
  exact ⟨by decide, by decide⟩

/-- C9: for a non-zero timestamp whose zone-adjusted, 500 ns-offset year
is at least 10000 or negative, the two-digit table indexing
(`digits10[year/100]`, `digits01[year%100]`, …) goes out of bounds, so
the timestamp arm yields no string: its totality needs the year to fit
in four digits. -/
theorem encodedLoadData_timestamp_year_out_of_range (off tns : Int) (htns : tns ≠ 0)
    (hy : 10000 ≤ tsYear off (tns + 500) ∨ tsYear off (tns + 500) < 0) :
    encodedLoadData off (.vtime tns) = none := by
  show encTimestamp off tns = none
  unfold encTimestamp
  rw [if_neg htns]
  rcases hy with hy | hy
  · obtain ⟨yn, hyn⟩ : ∃ yn : Nat, tsYear off (tns + 500) = (yn : Int) :=
      ⟨(tsYear off (tns + 500)).toNat, (Int.toNat_of_nonneg (by omega)).symm⟩
    rw [hyn] at hy
    rw [hyn, show ((yn : Int)).tdiv 100 = ((yn / 100 : Nat) : Int) from rfl,
      dig2_none_of_ge (by omega)]
    rfl
  · cases h : tsYear off (tns + 500) with
    | ofNat k =>
      rw [h] at hy
      simp only [Int.ofNat_eq_natCast] at hy
      omega
    | negSucc m =>
      by_cases hm99 : m < 99
      · have ht0 : (Int.negSucc m).tdiv 100 = 0 := by
          rw [show (Int.negSucc m).tdiv 100 = -(((m + 1 : Nat) / 100 : Nat) : Int) from rfl]
          omega
        have htm : (Int.negSucc m).tmod 100 < 0 := by
          rw [show (Int.negSucc m).tmod 100 = -(((m + 1 : Nat) % 100 : Nat) : Int) from rfl]
          omega
        rw [ht0, show dig2 (0 : Int) = some ['0', '0'] from by decide,
          dig2_none_of_neg htm]
        rfl
      · have htd : (Int.negSucc m).tdiv 100 < 0 := by
          rw [show (Int.negSucc m).tdiv 100 = -(((m + 1 : Nat) / 100 : Nat) : Int) from rfl]
          omega
        rw [dig2_none_of_neg htd]
        rfl

/-- Closed instance of `encodedLoadData_timestamp_year_out_of_range` at
a timestamp 367 days before 0001-01-01 (civil year -1). -/
theorem encodedLoadData_timestamp_year_out_of_range_witness :
    encodedLoadData 0 (.vtime (-31708800000000000)) = none :=
  encodedLoadData_timestamp_year_out_of_range 0 (-31708800000000000)
    (by decide) (Or.inr (by decide))

/-! ### Behaviour of the content loop -/

theorem ps0_pos (env : Env) (h : 0 < env.maxWriteSize) : 0 < ps0 env := by
  unfold ps0
  split <;> omega

theorem readLoop_exit_finished :
    ∀ (rs : List (Nat × Option GoErr)) (wErr : Nat → Option GoErr) (w : Nat)
      (evs : List Ev) (w' : Nat) (x : ReadExit),
      (∀ k, wErr k = none) → readLoop wErr rs w = some (evs, w', x) →
      ∃ e, x = ReadExit.finished e := by
  intro rs
  induction rs with
  | nil => intro wErr w evs w' x hW h; simp [readLoop] at h
  | cons p rest ih =>
    intro wErr w evs w' x hW h
    obtain ⟨n, rerr⟩ := p
    simp only [readLoop] at h
    by_cases hn : 0 < n
    · rw [if_pos hn, hW w] at h
      cases rerr with
      | some e =>
        rw [Option.some.injEq, Prod.mk.injEq, Prod.mk.injEq] at h
        exact ⟨e, h.2.2.symm⟩
      | none =>
        cases hrec : readLoop wErr rest (w + 1) with
        | none => rw [hrec] at h; simp at h
        | some r =>
          obtain ⟨evs1, w1, x1⟩ := r
          rw [hrec] at h
          simp only [Option.map] at h
          rw [Option.some.injEq, Prod.mk.injEq, Prod.mk.injEq] at h
          obtain ⟨e, he⟩ := ih wErr (w + 1) evs1 w1 x1 hW hrec
          exact ⟨e, h.2.2 ▸ he⟩
    · rw [if_neg hn] at h
      cases rerr with
      | some e =>
        rw [Option.some.injEq, Prod.mk.injEq, Prod.mk.injEq] at h
        exact ⟨e, h.2.2.symm⟩
      | none => exact ih wErr w evs w' x hW h

theorem readLoop_trailing_err :
    ∀ (rs : List (Nat × Option GoErr)) (n : Nat) (e : GoErr) (w : Nat),
      (∀ x ∈ rs, x.2 = none) →
      ∃ w', readLoop (fun _ => none) (rs ++ [(n, some e)]) w =
        some ((((rs.map Prod.fst).filter (fun k => decide (0 < k))).map Ev.writeData) ++
          (if 0 < n then [Ev.writeData n] else []), w', ReadExit.finished e) := by
  intro rs
  induction rs with
  | nil =>
    intro n e w _
    by_cases hn : 0 < n
    · exact ⟨w + 1, by simp [readLoop, hn]⟩
    · exact ⟨w, by simp [readLoop, hn]⟩
  | cons p rest ih =>
    intro n e w hrs
    obtain ⟨m, rerr⟩ := p
    have hm : rerr = none := hrs (m, rerr) (List.mem_cons_self _ _)
    subst hm
    have hrest : ∀ x ∈ rest, x.2 = none := fun x hx => hrs x (List.mem_cons_of_mem _ hx)
    by_cases hmn : 0 < m
    · obtain ⟨w', hw'⟩ := ih n e (w + 1) hrest
      refine ⟨w', ?_⟩
      simp only [List.cons_append, readLoop, if_pos hmn, List.append_eq]
      rw [hw']
      simp [hmn]
    · obtain ⟨w', hw'⟩ := ih n e w hrest
      refine ⟨w', ?_⟩
      simp only [List.cons_append, readLoop, if_neg hmn, List.append_eq]
      rw [hw']
      simp [hmn, Nat.not_lt.mp hmn]

theorem readLoop_send_fail :
    ∀ (rs : List (Nat × Option GoErr)) (wErr : Nat → Option GoErr) (w : Nat)
      (n : Nat) (rerr : Option GoErr) (rest : List (Nat × Option GoErr)) (e : GoErr),
      (∀ x ∈ rs, x.2 = none ∧ 0 < x.1) →
      (∀ k, k < rs.length → wErr (w + k) = none) →
      wErr (w + rs.length) = some e →
      0 < n →
      readLoop wErr (rs ++ (n, rerr) :: rest) w =
        some (rs.map (fun x => Ev.writeData x.1) ++ [Ev.writeData n],
          w + rs.length + 1, ReadExit.sendFailed e) := by
  intro rs
  induction rs with
  | nil =>
    intro wErr w n rerr rest e _ _ hfail hn
    simp only [List.length_nil, Nat.add_zero] at hfail
    simp [readLoop, hn, hfail]
  | cons p rest' ih =>
    intro wErr w n rerr rest e hrs hok hfail hn
    obtain ⟨m, re⟩ := p
    obtain ⟨hre, hm⟩ := hrs (m, re) (List.mem_cons_self _ _)
    subst hre
    have h0 : wErr w = none := by
      have := hok 0 (by simp)
      simpa using this
    have hrec := ih wErr (w + 1) n rerr rest e
      (fun x hx => hrs x (List.mem_cons_of_mem _ hx))
      (fun k hk => by
        have := hok (k + 1) (by simpa using Nat.succ_lt_succ hk)
        simpa [Nat.add_assoc, Nat.add_comm 1 k] using this)
      (by
        have harith : w + 1 + rest'.length = w + (rest'.length + 1) := by omega
        rw [harith]
        simpa using hfail)
      hn
    have harith : w + 1 + rest'.length = w + (rest'.length + 1) := by omega
    rw [harith] at hrec
    simp only [List.cons_append, readLoop, if_pos hm, h0, List.append_eq, hrec, Option.map,
      List.map_cons, List.length_cons]

theorem phase12_exit_ok (env : Env) (name : String)
    (W : ∀ k, env.writeErrs k = none) (evs : List Ev) (w : Nat) (c : Bool) (x : MidExit)
    (h : phase12 env name = some (evs, w, c, x)) : ∃ err0, x = MidExit.ok err0 := by
  simp only [phase12] at h
  by_cases hc : (resolveSource env name (ps0 env)).err = none ∧
      0 < (resolveSource env name (ps0 env)).ps
  · rw [if_pos hc] at h
    cases hrl : readLoop env.writeErrs env.reads 0 with
    | none => rw [hrl] at h; cases h
    | some r =>
      obtain ⟨le, lw, x'⟩ := r
      obtain ⟨e, he⟩ := readLoop_exit_finished env.reads env.writeErrs 0 le lw x' W hrl
      subst he
      rw [hrl] at h
      rw [Option.some.injEq, Prod.mk.injEq, Prod.mk.injEq, Prod.mk.injEq] at h
      exact ⟨if e = GoErr.eof then none else some e, h.2.2.2.symm⟩
  · rw [if_neg hc] at h
    rw [Option.some.injEq, Prod.mk.injEq, Prod.mk.injEq, Prod.mk.injEq] at h
    exact ⟨(resolveSource env name (ps0 env)).err, h.2.2.2.symm⟩

/-- C7: whenever the transport accepts every packet, a completed request
(other than the programmatic-load sentinel) always has the empty
termination packet in its trace — also when resolution or the content
streaming ended in an error. -/
theorem handleInFileRequest_always_terminates (env : Env) (name : String)
    (W : ∀ k, env.writeErrs k = none) (hname : name ≠ "Data::Data")
    (evs : List Ev) (res : Option GoErr)
    (h : handleInFileRequest env name = some (evs, res)) :
    Ev.writeEmpty ∈ evs := by
  unfold handleInFileRequest at h
  rw [if_neg hname] at h
  cases hp : phase12 env name with
  | none => rw [hp] at h; cases h
  | some q =>
    obtain ⟨evs', w', c', x⟩ := q
    obtain ⟨err0, hx⟩ := phase12_exit_ok env name W evs' w' c' x hp
    subst hx
    rw [hp] at h
    simp only [W] at h
    cases err0 with
    | none =>
      simp at h
      rw [← h.1]
      simp
    | some e =>
      simp at h
      rw [← h.1]
      simp

/-- Closed instance of `handleInFileRequest_always_terminates`: a read
error mid-stream still leaves the empty termination frame in the trace. -/
theorem handleInFileRequest_always_terminates_witness :
    Ev.writeEmpty ∈ [Ev.writeData 3, Ev.writeEmpty, Ev.drain] :=
  handleInFileRequest_always_terminates envReadErr "Reader::data"
    (fun _ => rfl) (by decide) [Ev.writeData 3, Ev.writeEmpty, Ev.drain]
    (some (.readFail 7)) (by decide)

/-- C8: a file-path request (not reader-classified) whose quote-stripped
path is not whitelisted, with the allow-all override off, yields the
authorization error — the handshake still runs — and its trace never
contains a file-open attempt, whatever the transport does. -/
theorem handleInFileRequest_unauthorized (env : Env) (name : String)
    (hname : name ≠ "Data::Data")
    (hri : readerIdx name = none)
    (hall : env.allowAllFiles = false)
    (hreg : env.fileReg (trimQuotes name) = false) :
    (env.writeErrs 0 = none →
      handleInFileRequest env name =
        some ([Ev.writeEmpty, Ev.drain], some (GoErr.authFail (trimQuotes name)))) ∧
    (∀ evs res, handleInFileRequest env name = some (evs, res) →
      ∀ p, Ev.openFile p ∉ evs) := by
  constructor
  · intro hW0
    simp [handleInFileRequest, phase12, resolveSource, hri, hall, hreg, hname, hW0]
  · intro evs res h p
    cases hW0 : env.writeErrs 0 with
    | none =>
      simp [handleInFileRequest, phase12, resolveSource, hri, hall, hreg, hname, hW0] at h
      simp [← h.1]
    | some e =>
      simp [handleInFileRequest, phase12, resolveSource, hri, hall, hreg, hname, hW0] at h
      simp [← h.1]

/-- Closed instance of `handleInFileRequest_unauthorized`. -/
theorem handleInFileRequest_unauthorized_witness :
    handleInFileRequest envNoAuth "data.csv" =
      some ([Ev.writeEmpty, Ev.drain], some (GoErr.authFail (trimQuotes "data.csv"))) :=
  (handleInFileRequest_unauthorized envNoAuth "data.csv"
    (by decide) (by decide) rfl rfl).1 rfl

/-- C1: every failure kind other than a transport-send failure — the
authorization failure, a reader-registry miss, a `nil` factory result, a
resource-open failure, a stat failure, and a mid-stream read failure —
still sends the empty termination frame and then drains exactly one
packet, and the request returns the original error (the drain's result,
`Env.drainRes`, never appears); a transport-send failure, in the content
loop or at the termination write, is returned at once with no protocol
traffic after the failed write. -/
theorem handleInFileRequest_error_protocol (env : Env) (name : String) :
    ((∀ k, env.writeErrs k = none) → name ≠ "Data::Data" →
      ((readerIdx name = none → env.allowAllFiles = false →
          env.fileReg (trimQuotes name) = false →
          handleInFileRequest env name =
            some ([Ev.writeEmpty, Ev.drain], some (GoErr.authFail (trimQuotes name)))) ∧
        (∀ idx, readerIdx name = some idx →
          env.readerReg (String.mk (name.data.drop (idx + 8))) = none →
          handleInFileRequest env name =
            some ([Ev.writeEmpty, Ev.drain],
              some (GoErr.readerNotRegistered (String.mk (name.data.drop (idx + 8)))))) ∧
        (∀ idx beh, readerIdx name = some idx →
          env.readerReg (String.mk (name.data.drop (idx + 8))) = some beh →
          beh.isNil = true →
          handleInFileRequest env name =
            some ([Ev.writeEmpty, Ev.drain],
              some (GoErr.readerNil (String.mk (name.data.drop (idx + 8)))))) ∧
        (∀ e, readerIdx name = none →
          (env.allowAllFiles = true ∨ env.fileReg (trimQuotes name) = true) →
          env.openRes (trimQuotes name) = .error e →
          handleInFileRequest env name =
            some ([Ev.openFile (trimQuotes name), Ev.writeEmpty, Ev.drain], some e)) ∧
        (∀ e sz, readerIdx name = none →
          (env.allowAllFiles = true ∨ env.fileReg (trimQuotes name) = true) →
          env.openRes (trimQuotes name) = .ok sz →
          env.statRes (trimQuotes name) = some e →
          handleInFileRequest env name =
            some ([Ev.openFile (trimQuotes name), Ev.writeEmpty, Ev.drain], some e)) ∧
        (∀ idx beh rs n e, readerIdx name = some idx →
          env.readerReg (String.mk (name.data.drop (idx + 8))) = some beh →
          beh.isNil = false → 0 < env.maxWriteSize →
          env.reads = rs ++ [(n, some e)] → (∀ x ∈ rs, x.2 = none) → e ≠ GoErr.eof →
          handleInFileRequest env name =
            some ((((rs.map Prod.fst).filter (fun k => decide (0 < k))).map Ev.writeData) ++
              (if 0 < n then [Ev.writeData n] else []) ++ [Ev.writeEmpty, Ev.drain],
              some e)))) ∧
    (∀ idx beh rs n rerr rest e, name ≠ "Data::Data" →
      readerIdx name = some idx →
      env.readerReg (String.mk (name.data.drop (idx + 8))) = some beh →
      beh.isNil = false → 0 < env.maxWriteSize →
      env.reads = rs ++ (n, rerr) :: rest →
      (∀ x ∈ rs, x.2 = none ∧ 0 < x.1) →
      (∀ k, k < rs.length → env.writeErrs k = none) →
      env.writeErrs rs.length = some e → 0 < n →
      handleInFileRequest env name =
        some (rs.map (fun x => Ev.writeData x.1) ++ [Ev.writeData n], some e)) ∧
    (∀ e, name ≠ "Data::Data" → readerIdx name = none →
      env.allowAllFiles = false → env.fileReg (trimQuotes name) = false →
      env.writeErrs 0 = some e →
      handleInFileRequest env name = some ([Ev.writeEmpty], some e)) := by
  refine ⟨fun W hname => ⟨?_, ?_, ?_, ?_, ?_, ?_⟩, ?_, ?_⟩
  · intro hri hall hreg
    simp [handleInFileRequest, phase12, resolveSource, hri, hall, hreg, hname, W 0]
  · intro idx hri hrr
    simp [handleInFileRequest, phase12, resolveSource, hri, hrr, hname, W 0]
  · intro idx beh hri hrr hnil
    simp [handleInFileRequest, phase12, resolveSource, hri, hrr, hnil, hname, W 0]
  · intro e hri hok hopen
    have hcond : (env.allowAllFiles || env.fileReg (trimQuotes name)) = true := by
      rcases hok with h | h <;> simp [h]
    simp [handleInFileRequest, phase12, resolveSource, hri, hcond, hopen, hname, W 0]
  · intro e sz hri hok hopen hstat
    have hcond : (env.allowAllFiles || env.fileReg (trimQuotes name)) = true := by
      rcases hok with h | h <;> simp [h]
    simp [handleInFileRequest, phase12, resolveSource, hri, hcond, hopen, hstat,
      hname, W 0]
  · intro idx beh rs n e hri hrr hnil hmw hreads hrs hee
    have hWe : env.writeErrs = fun _ => none := funext W
    have hps := ps0_pos env hmw
    obtain ⟨w', hw'⟩ := readLoop_trailing_err rs n e 0 hrs
    simp [handleInFileRequest, phase12, resolveSource, hri, hrr, hnil, hname, hWe,
      hreads, hw', hps, hee]
  · intro idx beh rs n rerr rest e hname hri hrr hnil hmw hreads hrs hok hfail hn
    have hps := ps0_pos env hmw
    have hsf := readLoop_send_fail rs env.writeErrs 0 n rerr rest e hrs
      (fun k hk => by simpa using hok k hk) (by simpa using hfail) hn
    simp [handleInFileRequest, phase12, resolveSource, hri, hrr, hnil, hname,
      hreads, hsf, hps]
  · intro e hname hri hall hreg hW0
    simp [handleInFileRequest, phase12, resolveSource, hri, hall, hreg, hname, hW0]

/-- Closed instances of `handleInFileRequest_error_protocol`: an
authorization failure and a mid-stream read failure both end in the
empty frame plus one drain carrying the original error; a send failure
on the first content packet and one on the termination frame both return
the send error with nothing after the failed write. -/
theorem handleInFileRequest_error_protocol_witness :
    handleInFileRequest envNoAuth "data.csv" =
      some ([Ev.writeEmpty, Ev.drain], some (GoErr.authFail (trimQuotes "data.csv"))) ∧
    handleInFileRequest envReadErr "Reader::data" =
      some (((([(3, (none : Option GoErr)), (0, some (.readFail 7))].take 1
          |>.map Prod.fst).filter (fun k => decide (0 < k))).map Ev.writeData) ++
        (if 0 < (0 : Nat) then [Ev.writeData 0] else []) ++ [Ev.writeEmpty, Ev.drain],
        some (GoErr.readFail 7)) ∧
    handleInFileRequest envSendErr "Reader::data" =
      some (([] : List (Nat × Option GoErr)).map (fun x => Ev.writeData x.1) ++
        [Ev.writeData 3], some (GoErr.sendFail 3)) ∧
    handleInFileRequest envTermSendErr "data.csv" =
      some ([Ev.writeEmpty], some (GoErr.sendFail 9)) := by
  refine ⟨?_, ?_, ?_, ?_⟩
  · exact ((handleInFileRequest_error_protocol envNoAuth "data.csv").1
      (fun _ => rfl) (by decide)).1 (by decide) rfl rfl
  · exact ((handleInFileRequest_error_protocol envReadErr "Reader::data").1
      (fun _ => rfl) (by decide)).2.2.2.2.2 0 ⟨false, false⟩
      [(3, none)] 0 (.readFail 7) (by decide) (by decide) rfl (by decide)
      rfl (by decide) (by decide)
  · exact (handleInFileRequest_error_protocol envSendErr "Reader::data").2.1
      0 ⟨false, false⟩ [] 3 none [(0, some (.readFail 7))] (.sendFail 3)
      (by decide) (by decide) rfl (by decide) (by decide) rfl
      (by intro x hx; cases hx) (by intro k hk; cases hk) rfl (by decide)
  · exact (handleInFileRequest_error_protocol envTermSendErr "data.csv").2.2
      (.sendFail 9) (by decide) (by decide) rfl rfl rfl

end Infile
